import Mathlib

/-!
Page behaviour controller of the video sharing platform.

A shallow embedding of `staticfiles/js/main.js`: the file-input `change`
handler, `getCookie`, the search debounce, `loadMoreVideos`, the lazy-loading
observer callback, the `DOMContentLoaded` wiring and the completion handler of
`makeAjaxRequest`, with the properties proved about them.
-/

namespace VideoSharing

/-! ## JavaScript strings -/

/-- A JavaScript string is its sequence of UTF-16 code units. -/
abbrev JSString := List Nat

/-- The code units of one code point (`UTF16EncodeCodePoint`). -/
def utf16EncodeCodePoint (v : Nat) : List Nat :=
  if v < 0x10000 then [v]
  else [0xD800 + (v - 0x10000) / 0x400, 0xDC00 + (v - 0x10000) % 0x400]

/-- The JavaScript string denoted by a literal of the source. -/
def js (s : String) : JSString :=
  s.toList.flatMap fun c => utf16EncodeCodePoint c.toNat

/-- `String.prototype.includes`: `t` occurs in `s` as a contiguous run. -/
def includes : JSString → JSString → Bool
  | [], t => t.isEmpty
  | c :: s, t => t.isPrefixOf (c :: s) || includes s t

/-- `String.prototype.substring(0, n)`; an end past the string is clamped. -/
def substringTo (s : JSString) (n : Nat) : JSString := s.take n

/-- `String.prototype.substring(n)`; a start past the string is clamped. -/
def substringFrom (s : JSString) (n : Nat) : JSString := s.drop n

/-! ## File upload validation (the `change` handler of `input[type="file"]`) -/

/-- The fields of a `File` the handler reads. -/
structure File where
  name : JSString
  size : Nat
  type : JSString
deriving DecidableEq, Repr

/-- What the `change` handler does to the page, in program order. -/
inductive Effect
  | alert (message : JSString)
  | setValue (value : JSString)
  | consoleLog (message : JSString)
deriving DecidableEq, Repr

/-- `const maxSize = 50 * 1024 * 1024`. -/
def maxSize : Nat := 50 * 1024 * 1024

/-- `const allowedTypes = [...]`. -/
def allowedTypes : List JSString :=
  [js "video/mp4", js "video/avi", js "video/quicktime", js "video/x-msvideo"]

/-- The text of the alert of line 67. -/
def sizeAlert : JSString := js "File size too large. Maximum size is 50MB."

/-- The text of the alert of line 76. -/
def typeAlert : JSString := js "Invalid file type. Please upload MP4, AVI, or MOV files."

/-- `(size / (1024 * 1024)).toFixed(2)`. A file size is an integer below `2^53`,
so the division by `2^20` is exact, and `toFixed(2)` takes the integer `n` nearest
to a hundred times the quotient, the larger one on a tie. -/
def sizeInMB (size : Nat) : JSString :=
  let n := (200 * size + 1024 * 1024) / (2 * (1024 * 1024))
  js (toString (n / 100)) ++ js "." ++ js (toString (n % 100 / 10)) ++ js (toString (n % 10))

/-- The listener of lines 61-87, run with `this.accept = accept` and
`this.files = files`. -/
def changeHandler (accept : JSString) (files : List File) : List Effect :=
  match files.head? with
  | none => []
  | some file =>
    if file.size > maxSize then
      [Effect.alert sizeAlert, Effect.setValue []]
    else if accept ≠ [] ∧ includes accept (js "video/*") = true
        ∧ allowedTypes.contains file.type = false then
      [Effect.alert typeAlert, Effect.setValue []]
    else
      [Effect.consoleLog
        (js "Selected file: " ++ file.name ++ js " (" ++ sizeInMB file.size ++ js " MB)")]

/-! ## `getCookie` -/

/-- What a `throw` carries. -/
inductive JSError
  | URIError
  | SyntaxError (message : JSString)
  | Error (message : JSString)
  | thrown (value : Nat)
deriving DecidableEq, Repr

deriving instance DecidableEq for Except

/-- `String.prototype.split` with a separator of one code unit. -/
def split (sep : Nat) : JSString → List JSString
  | [] => [[]]
  | c :: s =>
    if c = sep then [] :: split sep s
    else
      match split sep s with
      | [] => [[c]]
      | piece :: pieces => (c :: piece) :: pieces

/-- White space and line terminators of ECMAScript, which `trim` strips. -/
def isWhiteSpace (c : Nat) : Bool :=
  c = 0x09 || c = 0x0A || c = 0x0B || c = 0x0C || c = 0x0D || c = 0x20 || c = 0xA0
    || c = 0x1680 || (0x2000 ≤ c && c ≤ 0x200A) || c = 0x2028 || c = 0x2029
    || c = 0x202F || c = 0x205F || c = 0x3000 || c = 0xFEFF

/-- `String.prototype.trim`. -/
def trim (s : JSString) : JSString :=
  ((s.dropWhile isWhiteSpace).reverse.dropWhile isWhiteSpace).reverse

/-- The value of a hexadecimal digit. -/
def hexValue (c : Nat) : Option Nat :=
  if 48 ≤ c ∧ c ≤ 57 then some (c - 48)
  else if 65 ≤ c ∧ c ≤ 70 then some (c - 55)
  else if 97 ≤ c ∧ c ≤ 102 then some (c - 87)
  else none

/-- The `Decode` operation of ECMAScript with an empty reserved set. `need` is the
number of continuation octets still due for the code point being read, `acc` the
bits read so far, `least` the smallest code point its length may encode. -/
def decodeLoop : JSString → Nat → Nat → Nat → Except JSError JSString
  | [], 0, _, _ => .ok []
  | [], _ + 1, _, _ => .error .URIError
  | c :: rest, 0, _, _ =>
    if c ≠ 37 then (decodeLoop rest 0 0 0).map (c :: ·)
    else
      match rest with
      | h :: l :: rest2 =>
        match hexValue h, hexValue l with
        | some a, some b =>
          let octet := 16 * a + b
          if octet < 0x80 then (decodeLoop rest2 0 0 0).map (octet :: ·)
          else if 0xC0 ≤ octet ∧ octet < 0xE0 then decodeLoop rest2 1 (octet % 0x20) 0x80
          else if 0xE0 ≤ octet ∧ octet < 0xF0 then decodeLoop rest2 2 (octet % 0x10) 0x800
          else if 0xF0 ≤ octet ∧ octet < 0xF8 then decodeLoop rest2 3 (octet % 0x08) 0x10000
          else .error .URIError
        | _, _ => .error .URIError
      | _ => .error .URIError
  | c :: rest, need + 1, acc, least =>
    if c ≠ 37 then .error .URIError
    else
      match rest with
      | h :: l :: rest2 =>
        match hexValue h, hexValue l with
        | some a, some b =>
          let octet := 16 * a + b
          if 0x80 ≤ octet ∧ octet < 0xC0 then
            let v := 64 * acc + octet % 0x40
            if need ≠ 0 then decodeLoop rest2 need v least
            else if least ≤ v ∧ v ≤ 0x10FFFF ∧ ¬ (0xD800 ≤ v ∧ v ≤ 0xDFFF) then
              (decodeLoop rest2 0 0 0).map (utf16EncodeCodePoint v ++ ·)
            else .error .URIError
          else .error .URIError
        | _, _ => .error .URIError
      | _ => .error .URIError

/-- `decodeURIComponent`; it throws a `URIError` on a malformed escape. -/
def decodeURIComponent (s : JSString) : Except JSError JSString :=
  decodeLoop s 0 0 0

/-- The `for` loop of `getCookie` from index `i`, with `remaining` the number of
indices `i, i+1, ...` still below `cookies.length`. -/
def getCookieLoop (cookies : List JSString) (name : JSString) :
    Nat → Nat → Except JSError (Option JSString)
  | 0, _ => .ok none
  | remaining + 1, i =>
    let cookie := trim (cookies.getD i [])
    if substringTo cookie (name.length + 1) = name ++ js "=" then
      (decodeURIComponent (substringFrom cookie (name.length + 1))).map some
    else getCookieLoop cookies name remaining (i + 1)

/-- `getCookie(name)` with `document.cookie = documentCookie`; `none` is `null`. -/
def getCookie (documentCookie : JSString) (name : JSString) :
    Except JSError (Option JSString) :=
  if documentCookie ≠ [] then
    let cookies := split 59 documentCookie
    getCookieLoop cookies name cookies.length 0
  else .ok none

/-- An entry reads `name=value`: it starts with `name` and an equals sign. -/
def hasKey (name entry : JSString) : Bool :=
  (name ++ js "=").isPrefixOf entry

/-- The key of an entry: the text before its first equals sign, when it has one. -/
def entryKey (entry : JSString) : Option JSString :=
  if 61 ∈ entry then some (entry.takeWhile fun c => c ≠ 61) else none

/-- What the specification says `getCookie` returns: the decoded text after `name=`
of the first trimmed entry with key `name`, and `null` without one. -/
def getCookieSpec (documentCookie : JSString) (name : JSString) :
    Except JSError (Option JSString) :=
  match ((split 59 documentCookie).map trim).find? (hasKey name) with
  | none => .ok none
  | some entry => (decodeURIComponent (entry.drop (name.length + 1))).map some

/-! ## `makeAjaxRequest`: the `onreadystatechange` handler -/

/-- One invocation of the callback: its `err` and `data` arguments, `none` for `null`. -/
structure Call (Json : Type) where
  err : Option JSError
  data : Option Json
deriving DecidableEq, Repr

/-- The callback a caller passes: given the invocations made before, it returns or
throws on the arguments `err` and `data`. -/
abbrev Callback (Json : Type) :=
  List (Call Json) → Option JSError → Option Json → Except JSError Unit

/-- `callback(err, data)`: the invocation is recorded after those of `log`, and the
call returns or throws as the callback does. -/
def invoke {Json : Type} (callback : Callback Json) (err : Option JSError)
    (data : Option Json) (log : List (Call Json)) :
    Except JSError Unit × List (Call Json) :=
  (callback log err data, log ++ [⟨err, data⟩])

/-- The handler of lines 194-207, run with `xhr.readyState`, `xhr.status` and
`xhr.responseText` as given; `parse` is `JSON.parse`. It yields how the handler ends
(returns, or throws) and the invocations of the callback in order. -/
def onreadystatechange {Json : Type} (parse : JSString → Except JSError Json)
    (callback : Callback Json) (readyState status : Nat) (responseText : JSString) :
    Except JSError Unit × List (Call Json) :=
  if readyState = 4 then
    if status = 200 then
      let tryBlock : Except JSError Unit × List (Call Json) :=
        match parse responseText with
        | .ok response => invoke callback none (some response) []
        | .error e => (.error e, [])
      match tryBlock with
      | (.ok u, log) => (.ok u, log)
      | (.error e, log) => invoke callback (some e) none log
    else invoke callback (some (JSError.Error (js "Request failed"))) none []
  else (.ok (), [])

/-! ## `loadMoreVideos` -/

/-- The variables `page` and `loading` of the handler, the pending timers of
load-more cycles (oldest first, each with the `loader` its closure captured) and
the writes to `loader.style.display` made so far. `page` counts cycles of a second
each, far below `2^53`, where `page++` on a number is exact. -/
structure LoadState where
  page : Nat
  loading : Bool
  timers : List (Option Nat)
  styleWrites : List (Nat × JSString)
deriving DecidableEq, Repr

/-- `let page = 1; let loading = false;` with nothing scheduled. -/
def LoadState.init : LoadState :=
  { page := 1, loading := false, timers := [], styleWrites := [] }

/-- `loadMoreVideos()`, with `loader` what `querySelector('.loading-indicator')`
finds at the call. -/
def loadMoreVideos (loader : Option Nat) (s : LoadState) : LoadState :=
  if s.loading then s
  else
    { s with
      loading := true
      styleWrites :=
        match loader with
        | some el => s.styleWrites ++ [(el, js "block")]
        | none => s.styleWrites
      timers := s.timers ++ [loader] }

/-- The function passed to `setTimeout` by the cycle that captured `loader`. -/
def cycleTimeout (loader : Option Nat) (s : LoadState) : LoadState :=
  { s with
    loading := false
    styleWrites :=
      match loader with
      | some el => s.styleWrites ++ [(el, js "none")]
      | none => s.styleWrites
    page := s.page + 1 }

/-- The oldest pending cycle timer fires; every delay is 1000 ms, so the timers
fire in the order they were set. Without a pending timer nothing happens. -/
def fireTimer (s : LoadState) : LoadState :=
  match s.timers with
  | [] => s
  | loader :: rest => cycleTimeout loader { s with timers := rest }

/-- The steps of the load-more state machine. -/
inductive LoadEvent
  | scroll (loader : Option Nat)
  | timeout
deriving DecidableEq, Repr

def loadStep (s : LoadState) : LoadEvent → LoadState
  | .scroll loader => loadMoreVideos loader s
  | .timeout => fireTimer s

def loadRun (s : LoadState) (events : List LoadEvent) : LoadState :=
  events.foldl loadStep s

/-- The number of cycles completed along `events` from `s`: the timeouts that found
a pending timer. -/
def completedCycles : LoadState → List LoadEvent → Nat
  | _, [] => 0
  | s, event :: events =>
    (match event, s.timers with
      | .timeout, _ :: _ => 1
      | _, _ => 0) + completedCycles (loadStep s event) events

/-- The flag `loading` is set exactly while one cycle timer is pending, and there is
never a second one. -/
def LoadInv (s : LoadState) : Prop :=
  (s.loading = true ↔ s.timers.length = 1) ∧ s.timers.length ≤ 1

/-! ## Search debounce -/

/-- The search field and its timer: the clock in milliseconds, `searchInput.value`,
the variable `searchTimeout` (`none` while undefined), the handle the next
`setTimeout` returns, the pending timers as (handle, due time) in the order they
were set, and the number of calls of `searchForm.submit()` so far. -/
structure SearchState where
  now : Nat
  value : JSString
  searchTimeout : Option Nat
  nextHandle : Nat
  timers : List (Nat × Nat)
  submits : Nat
deriving DecidableEq, Repr

/-- The page after the listener is attached, before any input. -/
def SearchState.init : SearchState :=
  { now := 0, value := [], searchTimeout := none, nextHandle := 1, timers := [],
    submits := 0 }

/-- `clearTimeout(handle)`: the timer with that handle, if pending, is dropped. -/
def clearTimeout (handle : Option Nat) (timers : List (Nat × Nat)) : List (Nat × Nat) :=
  match handle with
  | none => timers
  | some h => timers.filter fun t => t.1 ≠ h

/-- The `input` listener of lines 46-54. -/
def inputListener (s : SearchState) : SearchState :=
  { s with
    timers := clearTimeout s.searchTimeout s.timers ++ [(s.nextHandle, s.now + 500)]
    searchTimeout := some s.nextHandle
    nextHandle := s.nextHandle + 1 }

/-- The function the listener passes to `setTimeout`. -/
def searchTimeoutCallback (s : SearchState) : SearchState :=
  if s.value.length > 2 then { s with submits := s.submits + 1 } else s

/-- The clock advances by `d` milliseconds: the timers due by then fire, in the
order they were set, and leave the pending list. -/
def elapse (d : Nat) (s : SearchState) : SearchState :=
  (s.timers.filter fun t => t.2 ≤ s.now + d).foldl (fun st _ => searchTimeoutCallback st)
    { s with
      now := s.now + d
      timers := s.timers.filter fun t => ¬ t.2 ≤ s.now + d }

/-- A keystroke `gap` milliseconds after the state `s`: the field then holds `value`
and the `input` event is dispatched. -/
def keystroke (s : SearchState) (event : Nat × JSString) : SearchState :=
  inputListener { elapse event.1 s with value := event.2 }

/-- A burst of keystrokes, each given with the time since the step before it. -/
def typing (s : SearchState) (burst : List (Nat × JSString)) : SearchState :=
  burst.foldl keystroke s

/-- One timer is pending, set 500 ms after the present, and `searchTimeout` holds
its handle: the state right after an `input` event. -/
def Armed (s : SearchState) : Prop :=
  ∃ h, s.timers = [(h, s.now + 500)] ∧ s.searchTimeout = some h

/-! ## Lazy loading of videos -/

/-- An `IntersectionObserverEntry`, as far as the callback reads it. -/
structure Entry where
  target : Nat
  isIntersecting : Bool
deriving DecidableEq, Repr

/-- The elements `videoObserver` observes, and the elements whose `src` was assigned
from `dataset.src` (followed by `load()`), one occurrence for each assignment. -/
structure LazyState where
  observed : List Nat
  assigned : List Nat
deriving DecidableEq, Repr

/-- The body of `entries.forEach` in the observer callback. -/
def entryCallback (s : LazyState) (entry : Entry) : LazyState :=
  if entry.isIntersecting then
    { observed := s.observed.filter fun el => el ≠ entry.target
      assigned := s.assigned ++ [entry.target] }
  else s

/-- The callback passed to `new IntersectionObserver`. -/
def observerCallback (s : LazyState) (entries : List Entry) : LazyState :=
  entries.foldl entryCallback s

/-- The state after `lazyVideos.forEach(video => videoObserver.observe(video))`. -/
def LazyState.init (lazyVideos : List Nat) : LazyState :=
  { observed := lazyVideos, assigned := [] }

/-- The observer delivers the batches in turn. -/
def deliver (s : LazyState) (batches : List (List Entry)) : LazyState :=
  batches.foldl observerCallback s

/-- Every batch holds entries only for elements observed when it is delivered. -/
def Deliverable : LazyState → List (List Entry) → Prop
  | _, [] => True
  | s, batch :: batches =>
    (∀ entry ∈ batch, entry.target ∈ s.observed)
      ∧ Deliverable (observerCallback s batch) batches

/-- Some delivered entry for `video` is intersecting. -/
def Intersected (video : Nat) (batches : List (List Entry)) : Prop :=
  ∃ batch ∈ batches, ∃ entry ∈ batch, entry.target = video ∧ entry.isIntersecting = true

/-- The targets of the intersecting entries of a batch, in order. -/
def intersecting (batch : List Entry) : List Nat :=
  (batch.filter fun entry => entry.isIntersecting).map Entry.target

/-- No batch holds two intersecting entries for one element. -/
def SingleEntries (batches : List (List Entry)) : Prop :=
  ∀ batch ∈ batches, (intersecting batch).Nodup

/-! ## The `DOMContentLoaded` handler -/

/-- The page as the handler of lines 3-151 finds it: the elements each selector
matches (thumbnails with their `tagName`, the search form with its search input if
it has one), the path of the location, and how the constructors the handler calls
end on this page: they return or throw. -/
structure Page where
  tooltipTriggers : List Nat
  popoverTriggers : List Nat
  thumbnails : List (Nat × JSString)
  searchForm : Option (Nat × Option Nat)
  fileInputs : List Nat
  lazyVideos : List Nat
  forms : List Nat
  pathname : JSString
  newTooltip : Nat → Except JSError Unit
  newPopover : Nat → Except JSError Unit
  newIntersectionObserver : Except JSError Unit

/-- What the handler attaches to the page. -/
inductive Wiring
  | tooltip (el : Nat)
  | popover (el : Nat)
  | alertTimer
  | listener (el : Nat) (event : JSString)
  | observe (el : Nat)
  | scrollListener
deriving DecidableEq, Repr

/-- A run of statements: what it attached, and the exception that ended it early. -/
abbrev Wired := List Wiring × Option JSError

/-- Statements in sequence: the second run takes place when the first did not throw. -/
def andThen (a b : Wired) : Wired :=
  match a.2 with
  | none => (a.1 ++ b.1, b.2)
  | some e => (a.1, some e)

/-- `list.map(el => new Widget(el))`. -/
def construct (ctor : Nat → Except JSError Unit) (wiring : Nat → Wiring) : List Nat → Wired
  | [] => ([], none)
  | el :: els =>
    match ctor el with
    | .ok _ => andThen ([wiring el], none) (construct ctor wiring els)
    | .error e => ([], some e)

/-- Lines 26-38. -/
def wireThumbnails (thumbnails : List (Nat × JSString)) : List Wiring :=
  thumbnails.flatMap fun thumbnail =>
    if thumbnail.2 = js "VIDEO" then
      [Wiring.listener thumbnail.1 (js "mouseenter"),
        Wiring.listener thumbnail.1 (js "mouseleave")]
    else []

/-- Lines 41-56. -/
def wireSearch : Option (Nat × Option Nat) → List Wiring
  | some (_, some searchInput) => [Wiring.listener searchInput (js "input")]
  | _ => []

/-- Lines 59-88. -/
def wireFileInputs (fileInputs : List Nat) : List Wiring :=
  fileInputs.map fun input => Wiring.listener input (js "change")

/-- Lines 91-105. -/
def wireLazyVideos (page : Page) : Wired :=
  match page.newIntersectionObserver with
  | .ok _ => (page.lazyVideos.map Wiring.observe, none)
  | .error e => ([], some e)

/-- Lines 108-117. -/
def wireForms (forms : List Nat) : List Wiring :=
  forms.map fun form => Wiring.listener form (js "submit")

/-- Lines 144-150. -/
def wireScroll (pathname : JSString) : List Wiring :=
  if pathname = js "/" ∨ includes pathname (js "dashboard") = true then
    [Wiring.scrollListener]
  else []

/-- The `DOMContentLoaded` handler of lines 3-151. -/
def domContentLoaded (page : Page) : Wired :=
  andThen (construct page.newTooltip Wiring.tooltip page.tooltipTriggers) <|
  andThen (construct page.newPopover Wiring.popover page.popoverTriggers) <|
  andThen ([Wiring.alertTimer], none) <|
  andThen (wireThumbnails page.thumbnails, none) <|
  andThen (wireSearch page.searchForm, none) <|
  andThen (wireFileInputs page.fileInputs, none) <|
  andThen (wireLazyVideos page) <|
  andThen (wireForms page.forms, none) (wireScroll page.pathname, none)

/-- What is attached before the lazy-loading step. -/
def wiredBeforeObserver (page : Page) : List Wiring :=
  page.tooltipTriggers.map Wiring.tooltip ++ page.popoverTriggers.map Wiring.popover
    ++ [Wiring.alertTimer] ++ wireThumbnails page.thumbnails ++ wireSearch page.searchForm
    ++ wireFileInputs page.fileInputs

/-- The behaviours the specification lists before lazy loading, each for the
elements the page has: a widget for every tooltip and popover trigger, the alert
timer, the two hover listeners on every thumbnail that is a `VIDEO`, the `input`
listener on the search input of the search form, and the `change` listener on every
file input. -/
def ExpectedBeforeObserver (page : Page) (w : Wiring) : Prop :=
  (∃ el ∈ page.tooltipTriggers, w = Wiring.tooltip el)
    ∨ (∃ el ∈ page.popoverTriggers, w = Wiring.popover el)
    ∨ w = Wiring.alertTimer
    ∨ (∃ el, (el, js "VIDEO") ∈ page.thumbnails
        ∧ (w = Wiring.listener el (js "mouseenter")
          ∨ w = Wiring.listener el (js "mouseleave")))
    ∨ (∃ form input, page.searchForm = some (form, some input)
        ∧ w = Wiring.listener input (js "input"))
    ∨ (∃ el ∈ page.fileInputs, w = Wiring.listener el (js "change"))

/-- The behaviours the specification lists from lazy loading on: the observation of
every video with a `data-src`, the `submit` listener on every form that needs
validation, and the scroll listener on the root path and on a path that contains
`dashboard`. -/
def ExpectedFromObserver (page : Page) (w : Wiring) : Prop :=
  (∃ el ∈ page.lazyVideos, w = Wiring.observe el)
    ∨ (∃ el ∈ page.forms, w = Wiring.listener el (js "submit"))
    ∨ (w = Wiring.scrollListener
        ∧ (page.pathname = js "/" ∨ includes page.pathname (js "dashboard") = true))

/-- A page on which every behaviour has an element and no constructor throws, but
for the tooltip constructor if `tooltipThrows` and the observer constructor if
`observerThrows`. -/
def samplePage (tooltipThrows observerThrows : Bool) : Page :=
  { tooltipTriggers := [1]
    popoverTriggers := [2]
    thumbnails := [(3, js "VIDEO"), (4, js "IMG")]
    searchForm := some (5, some 6)
    fileInputs := [7]
    lazyVideos := [8]
    forms := [9]
    pathname := js "/dashboard/"
    newTooltip := fun _ => if tooltipThrows then .error (.thrown 0) else .ok ()
    newPopover := fun _ => .ok ()
    newIntersectionObserver := if observerThrows then .error (.thrown 1) else .ok () }

/-! # Theorems -/

/-! ## File upload validation -/

/-- C1: a selected file larger than 52428800 bytes makes the `change` handler show
the size alert, clear the input value and stop there, for every `accept` attribute
and every file type: the type alert is not shown and nothing is logged. -/
theorem changeHandler_oversized (accept : JSString) (file : File) (rest : List File)
    (hsize : file.size > 52428800) :
    changeHandler accept (file :: rest) = [Effect.alert sizeAlert, Effect.setValue []]
      ∧ Effect.alert typeAlert ∉ changeHandler accept (file :: rest)
      ∧ ∀ message, Effect.consoleLog message ∉ changeHandler accept (file :: rest) := by
  have hrun : changeHandler accept (file :: rest)
      = [Effect.alert sizeAlert, Effect.setValue []] := by
    have hmax : file.size > maxSize := by simpa [maxSize] using hsize
    simp [changeHandler, hmax]
  have hne : typeAlert ≠ sizeAlert := by decide
  refine ⟨hrun, ?_, ?_⟩
  · rw [hrun]
    simp [hne]
  · intro message
    rw [hrun]
    simp

theorem changeHandler_oversized_witness :
    changeHandler (js "video/*") [⟨js "big.mp4", 52428801, js "video/mp4"⟩]
        = [Effect.alert sizeAlert, Effect.setValue []]
      ∧ Effect.alert typeAlert
          ∉ changeHandler (js "video/*") [⟨js "big.mp4", 52428801, js "video/mp4"⟩]
      ∧ ∀ message, Effect.consoleLog message
          ∉ changeHandler (js "video/*") [⟨js "big.mp4", 52428801, js "video/mp4"⟩] :=
  changeHandler_oversized (js "video/*") ⟨js "big.mp4", 52428801, js "video/mp4"⟩ []
    (by decide)

/-- C2: on an input whose `accept` contains `video/*`, a file whose type is none of
`video/mp4`, `video/avi`, `video/quicktime`, `video/x-msvideo` is rejected whatever
its size: an alert is shown (the size alert above 52428800 bytes, the type alert at
or below) and the input value is cleared. -/
theorem changeHandler_rejects_other_types (accept : JSString) (file : File)
    (rest : List File) (haccept : includes accept (js "video/*") = true)
    (hmp4 : file.type ≠ js "video/mp4") (havi : file.type ≠ js "video/avi")
    (hmov : file.type ≠ js "video/quicktime") (hmsv : file.type ≠ js "video/x-msvideo") :
    changeHandler accept (file :: rest)
      = [Effect.alert (if file.size > 52428800 then sizeAlert else typeAlert),
          Effect.setValue []] := by
  have hne : accept ≠ [] := by
    intro h
    rw [h] at haccept
    revert haccept
    decide
  have hmem : file.type ∉ allowedTypes := by
    simp [allowedTypes, hmp4, havi, hmov, hmsv]
  have hty : allowedTypes.contains file.type = false := by
    simpa using hmem
  by_cases hsize : file.size > 52428800
  · have hmax : file.size > maxSize := by simpa [maxSize] using hsize
    simp [changeHandler, hmax, hsize]
  · have hmax : ¬ file.size > maxSize := by simpa [maxSize] using hsize
    simp only [changeHandler, List.head?_cons, hmax, if_false, hsize]
    rw [if_pos ⟨hne, haccept, hty⟩]

theorem changeHandler_rejects_other_types_witness :
    changeHandler (js "image/*,video/*") [⟨js "clip.webm", 1024, js "video/webm"⟩]
      = [Effect.alert (if 1024 > 52428800 then sizeAlert else typeAlert),
          Effect.setValue []] :=
  changeHandler_rejects_other_types (js "image/*,video/*")
    ⟨js "clip.webm", 1024, js "video/webm"⟩ [] (by decide) (by decide) (by decide)
    (by decide) (by decide)

/-! ## `getCookie` -/

theorem js_equals : js "=" = [61] := by decide

theorem substringTo_eq_iff_hasKey (name cookie : JSString) :
    substringTo cookie (name.length + 1) = name ++ js "=" ↔ hasKey name cookie = true := by
  rw [hasKey, List.isPrefixOf_iff_prefix, List.prefix_iff_eq_take, js_equals, substringTo]
  simp only [List.length_append, List.length_singleton]
  exact eq_comm

theorem getCookieLoop_eq_find (cookies : List JSString) (name : JSString) :
    ∀ (remaining i : Nat), i + remaining = cookies.length →
      getCookieLoop cookies name remaining i
        = match ((cookies.drop i).map trim).find? (hasKey name) with
          | none => .ok none
          | some entry => (decodeURIComponent (entry.drop (name.length + 1))).map some := by
  intro remaining
  induction remaining with
  | zero =>
    intro i hi
    have hdrop : cookies.drop i = [] := List.drop_eq_nil_of_le (by omega)
    simp [getCookieLoop, hdrop]
  | succ k ih =>
    intro i hi
    have hlt : i < cookies.length := by omega
    have hdrop : cookies.drop i = cookies[i] :: cookies.drop (i + 1) :=
      List.drop_eq_getElem_cons hlt
    have hget : cookies.getD i [] = cookies[i] := by
      simp [List.getD, List.getElem?_eq_getElem hlt]
    rw [getCookieLoop, hdrop, hget, List.map_cons, List.find?_cons]
    by_cases hkey : hasKey name (trim cookies[i]) = true
    · have hsub := (substringTo_eq_iff_hasKey name (trim cookies[i])).mpr hkey
      simp only [hsub, if_true, hkey, substringFrom]
    · have hsub : ¬ substringTo (trim cookies[i]) (name.length + 1) = name ++ js "=" :=
        fun h => hkey ((substringTo_eq_iff_hasKey name (trim cookies[i])).mp h)
      have hfalse : hasKey name (trim cookies[i]) = false := by simpa using hkey
      simp only [hsub, if_false, hfalse]
      exact ih (i + 1) (by omega)

theorem hasKey_nil (name : JSString) : hasKey name [] = false := by
  cases name <;> simp [hasKey, js_equals, List.isPrefixOf]

theorem takeWhile_key (name rest : JSString) (h : 61 ∉ name) :
    (name ++ 61 :: rest).takeWhile (fun c => c ≠ 61) = name := by
  induction name with
  | nil => simp
  | cons c name ih =>
    have hc : c ≠ 61 := fun hc => h (hc ▸ List.mem_cons_self _ _)
    have hrest : 61 ∉ name := fun hmem => h (List.mem_cons_of_mem _ hmem)
    simpa [List.takeWhile, hc] using ih hrest

theorem split_at_equals (entry : JSString) (h : 61 ∈ entry) :
    ∃ rest, entry = entry.takeWhile (fun c => c ≠ 61) ++ 61 :: rest := by
  induction entry with
  | nil => cases h
  | cons c entry ih =>
    by_cases hc : c = 61
    · exact ⟨entry, by simp [hc]⟩
    · have hmem : 61 ∈ entry := by
        rcases List.mem_cons.mp h with h1 | h1
        · exact absurd h1.symm hc
        · exact h1
      obtain ⟨rest, hrest⟩ := ih hmem
      refine ⟨rest, ?_⟩
      simp only [List.takeWhile, hc, ne_eq, not_false_eq_true, decide_True, List.cons_append]
      exact congrArg (c :: ·) hrest

/-- For a name without an equals sign, an entry reads `name=value` exactly when the
text before its first equals sign is `name`. -/
theorem hasKey_iff_entryKey (name entry : JSString) (h : 61 ∉ name) :
    hasKey name entry = true ↔ entryKey entry = some name := by
  rw [hasKey, List.isPrefixOf_iff_prefix, js_equals]
  constructor
  · rintro ⟨rest, hrest⟩
    subst hrest
    have hmem : 61 ∈ name ++ [61] ++ rest := by simp
    have htake := takeWhile_key name rest h
    simp only [List.append_assoc, List.singleton_append] at hmem ⊢
    rw [entryKey, if_pos hmem, htake]
  · intro hkey
    by_cases hmem : 61 ∈ entry
    · rw [entryKey, if_pos hmem] at hkey
      obtain ⟨rest, hrest⟩ := split_at_equals entry hmem
      rw [Option.some.inj hkey] at hrest
      exact ⟨rest, by rw [hrest]; simp⟩
    · rw [entryKey, if_neg hmem] at hkey
      cases hkey

/-- C3 (amended): `getCookie` splits the cookie string on `;`, trims each entry and
takes the first entry, in order, that reads `name=value`; it returns `null` when
there is none or the cookie string is empty, and otherwise hands the text after
`name=` to `decodeURIComponent`, returning the decoded value when that succeeds and
throwing its `URIError` when the text is malformed. On `"a=1; csrftoken=XYZ; b=2"`
it returns `"XYZ"` for `csrftoken` and `null` for an absent name. -/
theorem getCookie_eq_getCookieSpec :
    (∀ documentCookie name : JSString,
        getCookie documentCookie name = getCookieSpec documentCookie name)
      ∧ (∀ name : JSString, getCookie [] name = .ok none)
      ∧ getCookie (js "a=1; csrftoken=XYZ; b=2") (js "csrftoken") = .ok (some (js "XYZ"))
      ∧ getCookie (js "a=1; csrftoken=XYZ; b=2") (js "sessionid") = .ok none := by
  refine ⟨?_, ?_, by decide, by decide⟩
  · intro documentCookie name
    by_cases hempty : documentCookie = []
    · subst hempty
      simp [getCookie, getCookieSpec, split, trim, hasKey_nil]
    · have h := getCookieLoop_eq_find (split 59 documentCookie) name
        (split 59 documentCookie).length 0 (by omega)
      simpa [getCookie, getCookieSpec, hempty] using h
  · intro name
    simp [getCookie]

/-- C3 as stated fails: when the first entry with key `csrftoken` holds a malformed
escape, `getCookie` throws a `URIError` and returns neither a value nor `null`. -/
theorem getCookie_throws_on_malformed_escape :
    getCookie (js "a=1; csrftoken=%; b=2") (js "csrftoken") = .error JSError.URIError
      ∧ ¬ ∃ value, getCookie (js "a=1; csrftoken=%; b=2") (js "csrftoken") = .ok value := by
  have h : getCookie (js "a=1; csrftoken=%; b=2") (js "csrftoken")
      = .error JSError.URIError := by decide
  refine ⟨h, ?_⟩
  rintro ⟨value, hvalue⟩
  rw [h] at hvalue
  cases hvalue

/-! ## `makeAjaxRequest` -/

/-- C7: at `readyState` 4, a status of 200 with a body that parses makes the first
invocation of the callback `(null, parsedBody)`, the only one when the callback
returns; a status of 200 with a body that fails to parse makes the one invocation
`(parseError, null)`, and the handler ends as that call of the callback ends, so the
parse error does not leave the handler by itself; any other status makes the one
invocation `(new Error('Request failed'), null)`, whatever the status is. -/
theorem onreadystatechange_completion {Json : Type}
    (parse : JSString → Except JSError Json) (callback : Callback Json) (status : Nat)
    (responseText : JSString) :
    (∀ response, status = 200 → parse responseText = .ok response →
        (onreadystatechange parse callback 4 status responseText).2.head?
            = some ⟨none, some response⟩
          ∧ (callback [] none (some response) = .ok () →
              onreadystatechange parse callback 4 status responseText
                = (.ok (), [⟨none, some response⟩])))
      ∧ (∀ parseError, status = 200 → parse responseText = .error parseError →
          onreadystatechange parse callback 4 status responseText
            = (callback [] (some parseError) none, [⟨some parseError, none⟩]))
      ∧ (status ≠ 200 →
          onreadystatechange parse callback 4 status responseText
            = (callback [] (some (JSError.Error (js "Request failed"))) none,
                [⟨some (JSError.Error (js "Request failed")), none⟩])) := by
  refine ⟨?_, ?_, ?_⟩
  · intro response hstatus hparse
    constructor
    · simp only [onreadystatechange, hstatus, hparse, invoke, if_true]
      cases callback [] none (some response) <;> simp
    · intro hreturns
      simp [onreadystatechange, hstatus, hparse, invoke, hreturns]
  · intro parseError hstatus hparse
    simp [onreadystatechange, hstatus, hparse, invoke]
  · intro hstatus
    simp [onreadystatechange, hstatus, invoke]

theorem onreadystatechange_completion_witness :
    onreadystatechange (fun _ => (.ok 7 : Except JSError Nat)) (fun _ _ _ => .ok ()) 4 200
        (js "7") = (.ok (), [⟨none, some 7⟩])
      ∧ onreadystatechange (fun _ => (.error (.SyntaxError (js "Unexpected end of JSON input"))
            : Except JSError Nat)) (fun _ _ _ => .ok ()) 4 200 []
          = (.ok (), [⟨some (.SyntaxError (js "Unexpected end of JSON input")), none⟩])
      ∧ onreadystatechange (fun _ => (.ok 7 : Except JSError Nat)) (fun _ _ _ => .ok ()) 4 404
          (js "7") = (.ok (), [⟨some (JSError.Error (js "Request failed")), none⟩]) :=
  ⟨((onreadystatechange_completion (fun _ => (.ok 7 : Except JSError Nat))
        (fun _ _ _ => .ok ()) 200 (js "7")).1 7 rfl rfl).2 rfl,
    (onreadystatechange_completion
        (fun _ => (.error (.SyntaxError (js "Unexpected end of JSON input"))
          : Except JSError Nat))
        (fun _ _ _ => .ok ()) 200 []).2.1 _ rfl rfl,
    (onreadystatechange_completion (fun _ => (.ok 7 : Except JSError Nat))
        (fun _ _ _ => .ok ()) 404 (js "7")).2.2 (by decide)⟩

/-- C10, the code at the failing input: the status is 200, the body parses, and the
callback throws when it is handed the parsed body. The `catch` of the handler takes
the exception of the callback for a parse error and invokes the callback a second
time, with that exception as a non-null `err`. -/
theorem onreadystatechange_invokes_throwing_callback_twice :
    onreadystatechange (fun _ => (.ok 7 : Except JSError Nat))
        (fun _ err _ => if err = none then .error (.thrown 1) else .ok ()) 4 200 (js "7")
      = (.ok (), [⟨none, some 7⟩, ⟨some (.thrown 1), none⟩]) := by
  decide

/-! ## `loadMoreVideos` -/

theorem loadInv_init : LoadInv LoadState.init := by
  simp [LoadInv, LoadState.init]

theorem loadInv_loadStep (s : LoadState) (event : LoadEvent) (h : LoadInv s) :
    LoadInv (loadStep s event) := by
  obtain ⟨hiff, hle⟩ := h
  cases event with
  | scroll loader =>
    by_cases hl : s.loading = true
    · simpa [loadStep, loadMoreVideos, hl, LoadInv] using And.intro hiff hle
    · have hzero : s.timers.length = 0 := by
        have hne : s.timers.length ≠ 1 := fun h1 => hl (hiff.mpr h1)
        omega
      simp [loadStep, loadMoreVideos, hl, LoadInv, hzero]
  | timeout =>
    cases htimers : s.timers with
    | nil =>
      have hl : s.loading = false := by
        cases hload : s.loading with
        | false => rfl
        | true =>
          have := hiff.mp hload
          simp [htimers] at this
      simp [loadStep, fireTimer, htimers, LoadInv, hl]
    | cons loader rest =>
      have hrest : rest = [] := by
        rw [htimers] at hle
        simp at hle
        exact hle
      simp [loadStep, fireTimer, htimers, cycleTimeout, LoadInv, hrest]

theorem loadInv_loadRun (events : List LoadEvent) :
    ∀ s, LoadInv s → LoadInv (loadRun s events) := by
  induction events with
  | nil => intro s h; exact h
  | cons event events ih =>
    intro s h
    exact ih (loadStep s event) (loadInv_loadStep s event h)

theorem page_loadStep (s : LoadState) (event : LoadEvent) :
    (loadStep s event).page = s.page + completedCycles s [event] := by
  cases event with
  | scroll loader =>
    by_cases hl : s.loading = true <;> simp [loadStep, loadMoreVideos, hl, completedCycles]
  | timeout =>
    cases htimers : s.timers <;>
      simp [loadStep, fireTimer, htimers, cycleTimeout, completedCycles]

theorem page_loadRun (events : List LoadEvent) :
    ∀ s, (loadRun s events).page = s.page + completedCycles s events := by
  induction events with
  | nil => intro s; simp [loadRun, completedCycles]
  | cons event events ih =>
    intro s
    have hstep := page_loadStep s event
    have hrun := ih (loadStep s event)
    simp only [loadRun, List.foldl_cons] at hrun ⊢
    simp only [completedCycles, Nat.add_zero] at hstep ⊢
    omega

theorem loadRun_scrolls_while_loading (scrolls : List (Option Nat)) (s : LoadState)
    (h : s.loading = true) : loadRun s (scrolls.map LoadEvent.scroll) = s := by
  induction scrolls with
  | nil => rfl
  | cons loader scrolls ih =>
    simpa [loadRun, loadStep, loadMoreVideos, h] using ih

/-- C5: with `loading` set, a call of `loadMoreVideos` leaves the state as it is: no
timer is scheduled, `page` and `loading` keep their values and the indicator is not
written. A cycle started in a reachable state with `loading` clear schedules one
timer, further scroll events before it fires change nothing, and when it fires
`loading` is clear again and `page` is one more than when the cycle started. -/
theorem loadMoreVideos_cycle (s : LoadState) (events : List LoadEvent)
    (loader : Option Nat) (scrolls : List (Option Nat)) :
    (s.loading = true → loadMoreVideos loader s = s)
      ∧ ((loadRun LoadState.init events).loading = false →
          (loadMoreVideos loader (loadRun LoadState.init events)).timers = [loader]
            ∧ loadRun (loadMoreVideos loader (loadRun LoadState.init events))
                (scrolls.map LoadEvent.scroll)
              = loadMoreVideos loader (loadRun LoadState.init events)
            ∧ (fireTimer (loadRun (loadMoreVideos loader (loadRun LoadState.init events))
                (scrolls.map LoadEvent.scroll))).loading = false
            ∧ (fireTimer (loadRun (loadMoreVideos loader (loadRun LoadState.init events))
                (scrolls.map LoadEvent.scroll))).page
              = (loadRun LoadState.init events).page + 1
            ∧ (fireTimer (loadRun (loadMoreVideos loader (loadRun LoadState.init events))
                (scrolls.map LoadEvent.scroll))).timers = []) := by
  constructor
  · intro h
    simp [loadMoreVideos, h]
  · intro hidle
    obtain ⟨hiff, hle⟩ := loadInv_loadRun events LoadState.init loadInv_init
    have hnil : (loadRun LoadState.init events).timers = [] := by
      have hne : (loadRun LoadState.init events).timers.length ≠ 1 := by
        intro h1
        have := hiff.mpr h1
        rw [hidle] at this
        cases this
      have hzero : (loadRun LoadState.init events).timers.length = 0 := by omega
      exact List.length_eq_zero.mp hzero
    have hloading : (loadMoreVideos loader (loadRun LoadState.init events)).loading = true := by
      simp [loadMoreVideos, hidle]
    have htimers : (loadMoreVideos loader (loadRun LoadState.init events)).timers
        = [loader] := by
      simp [loadMoreVideos, hidle, hnil]
    have hpage : (loadMoreVideos loader (loadRun LoadState.init events)).page
        = (loadRun LoadState.init events).page := by
      simp [loadMoreVideos, hidle]
    rw [loadRun_scrolls_while_loading scrolls _ hloading]
    refine ⟨htimers, rfl, ?_, ?_, ?_⟩
    · simp [fireTimer, htimers, cycleTimeout]
    · simp [fireTimer, htimers, cycleTimeout, hpage]
    · simp [fireTimer, htimers, cycleTimeout]

theorem loadMoreVideos_cycle_witness :
    loadMoreVideos (some 3) ⟨4, true, [none], []⟩ = ⟨4, true, [none], []⟩
      ∧ (fireTimer (loadRun (loadMoreVideos (some 3)
            (loadRun LoadState.init [.scroll none, .timeout]))
          ([some 3, none].map LoadEvent.scroll))).page
        = (loadRun LoadState.init [.scroll none, .timeout]).page + 1 :=
  ⟨(loadMoreVideos_cycle ⟨4, true, [none], []⟩ [.scroll none, .timeout] (some 3)
      [some 3, none]).1 rfl,
    ((loadMoreVideos_cycle ⟨4, true, [none], []⟩ [.scroll none, .timeout] (some 3)
      [some 3, none]).2 (by decide)).2.2.2.1⟩

/-- C6: in every state reached from `page = 1`, `loading = false` and no pending
timer by scroll events that call `loadMoreVideos` and firings of the pending cycle
timer, `loading` is set exactly when one load-more timer is pending, there is never
more than one pending, and `page` is 1 plus the number of completed cycles. -/
theorem loadRun_invariant (events : List LoadEvent) :
    ((loadRun LoadState.init events).loading = true
        ↔ (loadRun LoadState.init events).timers.length = 1)
      ∧ (loadRun LoadState.init events).timers.length ≤ 1
      ∧ (loadRun LoadState.init events).page
          = 1 + completedCycles LoadState.init events := by
  obtain ⟨hiff, hle⟩ := loadInv_loadRun events LoadState.init loadInv_init
  refine ⟨hiff, hle, ?_⟩
  rw [page_loadRun events LoadState.init]
  rfl

/-! ## Search debounce -/

theorem keystroke_idle (s : SearchState) (event : Nat × JSString) (h : s.timers = []) :
    Armed (keystroke s event) ∧ (keystroke s event).submits = s.submits
      ∧ (keystroke s event).value = event.2 := by
  refine ⟨⟨s.nextHandle, ?_, ?_⟩, ?_, ?_⟩ <;>
    cases hst : s.searchTimeout <;>
      simp [keystroke, inputListener, elapse, clearTimeout, h, hst]

theorem keystroke_armed (s : SearchState) (event : Nat × JSString) (h : Armed s)
    (hgap : event.1 < 500) :
    Armed (keystroke s event) ∧ (keystroke s event).submits = s.submits
      ∧ (keystroke s event).value = event.2 := by
  obtain ⟨handle, htimers, hst⟩ := h
  have hnot : ¬ s.now + 500 ≤ s.now + event.1 := by omega
  refine ⟨⟨s.nextHandle, ?_, ?_⟩, ?_, ?_⟩ <;>
    simp [keystroke, inputListener, elapse, clearTimeout, htimers, hst, hnot]

theorem elapse_armed_early (s : SearchState) (d : Nat) (h : Armed s) (hd : d < 500) :
    (elapse d s).submits = s.submits ∧ (elapse d s).timers.length = 1 := by
  obtain ⟨handle, htimers, _⟩ := h
  have hnot : ¬ s.now + 500 ≤ s.now + d := by omega
  have hlt : s.now + d < s.now + 500 := by omega
  constructor <;> simp [elapse, htimers, hnot, hlt, List.filter]

theorem elapse_armed_due (s : SearchState) (d : Nat) (h : Armed s) (hd : 500 ≤ d) :
    (elapse d s).submits = s.submits + (if s.value.length > 2 then 1 else 0)
      ∧ (elapse d s).timers = [] := by
  obtain ⟨handle, htimers, _⟩ := h
  have hdue : s.now + 500 ≤ s.now + d := by omega
  by_cases hlen : s.value.length > 2
  · constructor <;> simp [elapse, htimers, hdue, searchTimeoutCallback, hlen]
  · constructor <;> simp [elapse, htimers, hdue, searchTimeoutCallback, hlen]

theorem typing_armed (rest : List (Nat × JSString)) :
    ∀ s, Armed s → (∀ event ∈ rest, event.1 < 500) →
      Armed (typing s rest) ∧ (typing s rest).submits = s.submits := by
  induction rest with
  | nil => intro s h _; exact ⟨h, rfl⟩
  | cons event rest ih =>
    intro s h hgaps
    obtain ⟨harmed, hsub, _⟩ :=
      keystroke_armed s event h (hgaps event (List.mem_cons_self _ _))
    obtain ⟨harmed2, hsub2⟩ :=
      ih (keystroke s event) harmed fun e he => hgaps e (List.mem_cons_of_mem _ he)
    exact ⟨harmed2, by rw [← hsub]; exact hsub2⟩

theorem typing_value (rest : List (Nat × JSString)) :
    ∀ (s : SearchState) (first : Nat × JSString),
      (typing s (first :: rest)).value
        = ((first :: rest).getLast (List.cons_ne_nil first rest)).2 := by
  induction rest with
  | nil =>
    intro s first
    simp [typing, keystroke, inputListener]
  | cons event rest ih =>
    intro s first
    have h := ih (keystroke s first) event
    simpa [typing] using h

/-- C4: start with no timer pending and type a burst of one or more keystrokes, each
less than 500 ms after the one before. After every keystroke of the burst at most
one timer is pending and the form has not been submitted; it is still not submitted
while less than 500 ms have passed since the last keystroke; and once 500 ms have
passed without input the form has been submitted exactly once if the value then in
the field, that of the last keystroke, is longer than 2, and not at all otherwise,
with no timer left pending. -/
theorem search_debounce (s : SearchState) (first : Nat × JSString)
    (rest : List (Nat × JSString)) (d : Nat) (hidle : s.timers = [])
    (hgaps : ∀ event ∈ rest, event.1 < 500) (hd : 500 ≤ d) :
    (∀ k, (typing s ((first :: rest).take k)).timers.length ≤ 1
        ∧ (typing s ((first :: rest).take k)).submits = s.submits)
      ∧ (∀ early, early < 500 →
          (elapse early (typing s (first :: rest))).submits = s.submits
            ∧ (elapse early (typing s (first :: rest))).timers.length ≤ 1)
      ∧ (typing s (first :: rest)).value
          = ((first :: rest).getLast (List.cons_ne_nil first rest)).2
      ∧ (elapse d (typing s (first :: rest))).submits
          = s.submits + (if (typing s (first :: rest)).value.length > 2 then 1 else 0)
      ∧ (elapse d (typing s (first :: rest))).timers = [] := by
  have hburst : ∀ tail : List (Nat × JSString), (∀ event ∈ tail, event.1 < 500) →
      Armed (typing s (first :: tail)) ∧ (typing s (first :: tail)).submits = s.submits := by
    intro tail htail
    obtain ⟨harmed, hsub, _⟩ := keystroke_idle s first hidle
    obtain ⟨harmed2, hsub2⟩ := typing_armed tail (keystroke s first) harmed htail
    exact ⟨harmed2, by rw [← hsub]; exact hsub2⟩
  obtain ⟨harmed, hsub⟩ := hburst rest hgaps
  refine ⟨?_, ?_, typing_value rest s first, ?_, ?_⟩
  · intro k
    cases k with
    | zero => simp [typing, hidle]
    | succ k =>
      obtain ⟨⟨handle, htimers, _⟩, hsubk⟩ :=
        hburst (rest.take k) fun e he => hgaps e (List.mem_of_mem_take he)
      rw [List.take_succ_cons]
      exact ⟨by rw [htimers]; simp, hsubk⟩
  · intro early hearly
    obtain ⟨h1, h2⟩ := elapse_armed_early _ early harmed hearly
    exact ⟨by rw [h1, hsub], by omega⟩
  · rw [(elapse_armed_due _ d harmed hd).1, hsub]
  · exact (elapse_armed_due _ d harmed hd).2

theorem search_debounce_witness :
    (elapse 500 (typing SearchState.init
        [(40, js "a"), (120, js "ab"), (499, js "abc")])).submits
      = SearchState.init.submits
        + (if (typing SearchState.init
            [(40, js "a"), (120, js "ab"), (499, js "abc")]).value.length > 2
          then 1 else 0) :=
  (search_debounce SearchState.init (40, js "a") [(120, js "ab"), (499, js "abc")] 500 rfl
    (by decide) (by decide)).2.2.2.1

/-! ## Lazy loading of videos -/

theorem observerCallback_assigned (batch : List Entry) :
    ∀ s, (observerCallback s batch).assigned = s.assigned ++ intersecting batch := by
  induction batch with
  | nil => intro s; simp [observerCallback, intersecting]
  | cons entry batch ih =>
    intro s
    have h := ih (entryCallback s entry)
    simp only [observerCallback, List.foldl_cons] at h ⊢
    rw [h]
    cases hint : entry.isIntersecting <;>
      simp [entryCallback, intersecting, List.filter, hint]

theorem observerCallback_observed (batch : List Entry) :
    ∀ s el, el ∈ (observerCallback s batch).observed
      ↔ el ∈ s.observed ∧ el ∉ intersecting batch := by
  induction batch with
  | nil => intro s el; simp [observerCallback, intersecting]
  | cons entry batch ih =>
    intro s el
    have h := ih (entryCallback s entry) el
    simp only [observerCallback, List.foldl_cons] at h ⊢
    rw [h]
    cases hint : entry.isIntersecting
    · simp [entryCallback, intersecting, List.filter, hint]
    · simp only [entryCallback, intersecting, List.filter, hint, if_true, List.map_cons,
        List.mem_cons, List.mem_filter, decide_eq_true_eq, not_or]
      tauto

theorem mem_intersecting (batch : List Entry) (video : Nat) :
    video ∈ intersecting batch
      ↔ ∃ entry ∈ batch, entry.target = video ∧ entry.isIntersecting = true := by
  simp only [intersecting, List.mem_map, List.mem_filter]
  constructor
  · rintro ⟨entry, ⟨hmem, hint⟩, htarget⟩
    exact ⟨entry, hmem, htarget, hint⟩
  · rintro ⟨entry, hmem, htarget, hint⟩
    exact ⟨entry, ⟨hmem, hint⟩, htarget⟩

theorem deliver_unobserved (video : Nat) (batches : List (List Entry)) :
    ∀ s, video ∉ s.observed → Deliverable s batches →
      (deliver s batches).assigned.count video = s.assigned.count video
        ∧ video ∉ (deliver s batches).observed := by
  induction batches with
  | nil => intro s hout _; exact ⟨rfl, hout⟩
  | cons batch batches ih =>
    intro s hout hdel
    obtain ⟨hbatch, hrest⟩ := hdel
    have hnone : video ∉ intersecting batch := by
      intro hmem
      obtain ⟨entry, hentry, htarget, _⟩ := (mem_intersecting batch video).mp hmem
      exact hout (htarget ▸ hbatch entry hentry)
    have hout2 : video ∉ (observerCallback s batch).observed := fun hmem =>
      hout ((observerCallback_observed batch s video).mp hmem).1
    obtain ⟨hcount, hfinal⟩ := ih (observerCallback s batch) hout2 hrest
    refine ⟨?_, hfinal⟩
    have hstep : (observerCallback s batch).assigned.count video
        = s.assigned.count video := by
      rw [observerCallback_assigned, List.count_append, List.count_eq_zero_of_not_mem hnone]
      rfl
    simpa [deliver, hstep] using hcount

theorem deliver_count (video : Nat) (batches : List (List Entry)) :
    ∀ s, Deliverable s batches → SingleEntries batches →
      (Intersected video batches →
          (deliver s batches).assigned.count video = s.assigned.count video + 1
            ∧ video ∉ (deliver s batches).observed)
        ∧ (¬ Intersected video batches →
          (deliver s batches).assigned.count video = s.assigned.count video) := by
  induction batches with
  | nil =>
    intro s _ _
    exact ⟨fun ⟨_, hmem, _⟩ => absurd hmem (List.not_mem_nil _), fun _ => rfl⟩
  | cons batch batches ih =>
    intro s hdel hsingle
    obtain ⟨hbatch, hrest⟩ := hdel
    have hnodup : (intersecting batch).Nodup := hsingle batch (List.mem_cons_self _ _)
    have hsingle2 : SingleEntries batches := fun b hb =>
      hsingle b (List.mem_cons_of_mem _ hb)
    have hassigned := observerCallback_assigned batch s
    by_cases hhere : video ∈ intersecting batch
    · have hstep : (observerCallback s batch).assigned.count video
          = s.assigned.count video + 1 := by
        rw [hassigned, List.count_append, List.count_eq_one_of_mem hnodup hhere]
      have hout : video ∉ (observerCallback s batch).observed := fun hmem =>
        ((observerCallback_observed batch s video).mp hmem).2 hhere
      obtain ⟨hcount, hfinal⟩ :=
        deliver_unobserved video batches (observerCallback s batch) hout hrest
      have hyes : Intersected video (batch :: batches) :=
        ⟨batch, List.mem_cons_self _ _, (mem_intersecting batch video).mp hhere⟩
      refine ⟨fun _ => ⟨?_, hfinal⟩, fun hno => absurd hyes hno⟩
      simpa [deliver, hstep] using hcount
    · have hstep : (observerCallback s batch).assigned.count video
          = s.assigned.count video := by
        rw [hassigned, List.count_append, List.count_eq_zero_of_not_mem hhere]
        rfl
      have hiff : Intersected video (batch :: batches) ↔ Intersected video batches := by
        constructor
        · rintro ⟨b, hb, hentry⟩
          rcases List.mem_cons.mp hb with rfl | hb
          · exact absurd ((mem_intersecting b video).mpr hentry) hhere
          · exact ⟨b, hb, hentry⟩
        · rintro ⟨b, hb, hentry⟩
          exact ⟨b, List.mem_cons_of_mem _ hb, hentry⟩
      obtain ⟨hyes, hno⟩ := ih (observerCallback s batch) hrest hsingle2
      rw [hstep] at hyes hno
      exact ⟨fun h => hyes (hiff.mp h), fun h => hno fun h2 => h (hiff.mpr h2)⟩

/-- C9 (amended): let the observer deliver any sequence of batches, each with
entries only for elements observed when it is delivered and none with two
intersecting entries for one element. The `src` of a video is then assigned from
`data-src` exactly once if some delivered entry for it is intersecting, and never
otherwise; after the assignment the video is not observed, and no batch delivered
later assigns it again. -/
theorem lazy_video_assigned_once (lazyVideos : List Nat) (batches later : List (List Entry))
    (video : Nat) (hdel : Deliverable (LazyState.init lazyVideos) batches)
    (hsingle : SingleEntries batches)
    (hlater : Deliverable (deliver (LazyState.init lazyVideos) batches) later) :
    (Intersected video batches →
        (deliver (LazyState.init lazyVideos) batches).assigned.count video = 1
          ∧ video ∉ (deliver (LazyState.init lazyVideos) batches).observed
          ∧ (deliver (deliver (LazyState.init lazyVideos) batches) later).assigned.count video
              = 1)
      ∧ (¬ Intersected video batches →
        (deliver (LazyState.init lazyVideos) batches).assigned.count video = 0) := by
  obtain ⟨hyes, hno⟩ := deliver_count video batches (LazyState.init lazyVideos) hdel hsingle
  constructor
  · intro hint
    obtain ⟨hcount, hout⟩ := hyes hint
    have hone : (deliver (LazyState.init lazyVideos) batches).assigned.count video = 1 := by
      simpa [LazyState.init] using hcount
    refine ⟨hone, hout, ?_⟩
    rw [(deliver_unobserved video later _ hout hlater).1, hone]
  · intro hint
    simpa [LazyState.init] using hno hint

theorem lazy_video_assigned_once_witness :
    (deliver (LazyState.init [1, 2, 3])
        [[⟨1, false⟩, ⟨2, true⟩], [⟨1, true⟩]]).assigned.count 1 = 1
      ∧ 1 ∉ (deliver (LazyState.init [1, 2, 3])
          [[⟨1, false⟩, ⟨2, true⟩], [⟨1, true⟩]]).observed
      ∧ (deliver (deliver (LazyState.init [1, 2, 3]) [[⟨1, false⟩, ⟨2, true⟩], [⟨1, true⟩]])
          [[⟨3, true⟩]]).assigned.count 1 = 1 :=
  (lazy_video_assigned_once [1, 2, 3] [[⟨1, false⟩, ⟨2, true⟩], [⟨1, true⟩]] [[⟨3, true⟩]] 1
    (by simp [Deliverable, LazyState.init, observerCallback, entryCallback])
    (by simp [SingleEntries, intersecting])
    (by simp [Deliverable, deliver, LazyState.init, observerCallback, entryCallback])).1
    ⟨[⟨1, true⟩], by simp, ⟨1, true⟩, by simp, rfl, rfl⟩

/-- C9 as stated fails: a batch for the observed video 1 that holds an intersecting
entry, a non-intersecting one and an intersecting one again assigns its `src` twice,
since `unobserve` does not withdraw the entries already in the batch. -/
theorem lazy_video_assigned_twice :
    Deliverable (LazyState.init [1]) [[⟨1, true⟩, ⟨1, false⟩, ⟨1, true⟩]]
      ∧ Intersected 1 [[⟨1, true⟩, ⟨1, false⟩, ⟨1, true⟩]]
      ∧ (deliver (LazyState.init [1]) [[⟨1, true⟩, ⟨1, false⟩, ⟨1, true⟩]]).assigned.count 1
          = 2 := by
  refine ⟨by simp [Deliverable, LazyState.init], ?_, by decide⟩
  exact ⟨_, List.mem_singleton.mpr rfl, ⟨1, true⟩, by simp, rfl, rfl⟩

/-! ## The `DOMContentLoaded` handler -/

theorem construct_ok (ctor : Nat → Except JSError Unit) (wiring : Nat → Wiring)
    (els : List Nat) (h : ∀ el ∈ els, ctor el = .ok ()) :
    construct ctor wiring els = (els.map wiring, none) := by
  induction els with
  | nil => rfl
  | cons el els ih =>
    have hel := h el (List.mem_cons_self _ _)
    have hrest := ih fun x hx => h x (List.mem_cons_of_mem _ hx)
    simp [construct, hel, hrest, andThen]

theorem construct_split (ctor : Nat → Except JSError Unit) (wiring : Nat → Wiring)
    (before after : List Nat) (el : Nat) (e : JSError)
    (hbefore : ∀ x ∈ before, ctor x = .ok ()) (hthrow : ctor el = .error e) :
    construct ctor wiring (before ++ el :: after) = (before.map wiring, some e) := by
  induction before with
  | nil => simp [construct, hthrow]
  | cons x before ih =>
    have hx := hbefore x (List.mem_cons_self _ _)
    have hrest := ih fun y hy => hbefore y (List.mem_cons_of_mem _ hy)
    simp [construct, hx, hrest, andThen]

theorem andThen_throws (a b : Wired) (e : JSError) (h : a.2 = some e) :
    andThen a b = (a.1, some e) := by
  simp [andThen, h]

theorem mem_wireThumbnails (thumbnails : List (Nat × JSString)) (w : Wiring) :
    w ∈ wireThumbnails thumbnails
      ↔ ∃ el, (el, js "VIDEO") ∈ thumbnails
          ∧ (w = Wiring.listener el (js "mouseenter")
            ∨ w = Wiring.listener el (js "mouseleave")) := by
  simp only [wireThumbnails, List.mem_flatMap]
  constructor
  · rintro ⟨⟨el, tag⟩, hmem, hw⟩
    by_cases htag : tag = js "VIDEO"
    · subst htag
      simp only [if_true, List.mem_cons, List.mem_singleton, List.not_mem_nil,
        or_false] at hw
      exact ⟨el, hmem, hw⟩
    · simp [htag] at hw
  · rintro ⟨el, hmem, hw⟩
    refine ⟨(el, js "VIDEO"), hmem, ?_⟩
    simp only [if_true, List.mem_cons, List.mem_singleton, List.not_mem_nil, or_false]
    exact hw

theorem mem_wireSearch (searchForm : Option (Nat × Option Nat)) (w : Wiring) :
    w ∈ wireSearch searchForm
      ↔ ∃ form input, searchForm = some (form, some input)
          ∧ w = Wiring.listener input (js "input") := by
  cases searchForm with
  | none => simp [wireSearch]
  | some found =>
    obtain ⟨form, input⟩ := found
    cases input with
    | none => simp [wireSearch]
    | some input =>
      simp only [wireSearch, List.mem_singleton]
      constructor
      · intro hw
        exact ⟨form, input, rfl, hw⟩
      · rintro ⟨form2, input2, hsome, hw⟩
        cases hsome
        exact hw

theorem mem_map_wiring (els : List Nat) (wiring : Nat → Wiring) (w : Wiring) :
    w ∈ els.map wiring ↔ ∃ el ∈ els, w = wiring el := by
  rw [List.mem_map]
  exact ⟨fun ⟨el, hmem, hw⟩ => ⟨el, hmem, hw.symm⟩, fun ⟨el, hmem, hw⟩ => ⟨el, hmem, hw.symm⟩⟩

theorem mem_wiredBeforeObserver (page : Page) (w : Wiring) :
    w ∈ wiredBeforeObserver page ↔ ExpectedBeforeObserver page w := by
  simp only [wiredBeforeObserver, ExpectedBeforeObserver, List.mem_append, mem_map_wiring,
    List.mem_singleton, mem_wireThumbnails, mem_wireSearch, wireFileInputs, or_assoc]

theorem mem_wireScroll (pathname : JSString) (w : Wiring) :
    w ∈ wireScroll pathname
      ↔ w = Wiring.scrollListener
          ∧ (pathname = js "/" ∨ includes pathname (js "dashboard") = true) := by
  by_cases hpath : pathname = js "/" ∨ includes pathname (js "dashboard") = true
  · simp [wireScroll, hpath]
  · simp [wireScroll, hpath]

theorem mem_wiredFromObserver (page : Page) (w : Wiring) :
    w ∈ page.lazyVideos.map Wiring.observe ++ wireForms page.forms
          ++ wireScroll page.pathname
      ↔ ExpectedFromObserver page w := by
  simp only [ExpectedFromObserver, List.mem_append, mem_map_wiring, wireForms,
    mem_wireScroll, or_assoc]

/-- C8 (amended): the handler wires the behaviours one after the other with no
exception handling. An absent element skips only its own behaviour: when no
constructor throws the handler returns, and what it has wired is exactly every
listed behaviour for the elements the page has. When a step throws, the exception
leaves the handler, what was wired before that step stays wired, and that step and
every later one are not wired: a throwing `IntersectionObserver` constructor leaves
exactly the behaviours listed before lazy loading; a throwing tooltip constructor
leaves exactly the tooltips of the triggers before the one it threw on; a throwing
popover constructor leaves exactly all tooltips and the popovers of the triggers
before the one it threw on. -/
theorem domContentLoaded_sequential (page : Page) :
    ((∀ el ∈ page.tooltipTriggers, page.newTooltip el = .ok ()) →
        (∀ el ∈ page.popoverTriggers, page.newPopover el = .ok ()) →
        (page.newIntersectionObserver = .ok () →
            (domContentLoaded page).2 = none
              ∧ ∀ w, w ∈ (domContentLoaded page).1
                  ↔ ExpectedBeforeObserver page w ∨ ExpectedFromObserver page w)
          ∧ ∀ e, page.newIntersectionObserver = .error e →
            (domContentLoaded page).2 = some e
              ∧ ∀ w, w ∈ (domContentLoaded page).1 ↔ ExpectedBeforeObserver page w)
      ∧ (∀ before el after e, page.tooltipTriggers = before ++ el :: after →
          (∀ x ∈ before, page.newTooltip x = .ok ()) → page.newTooltip el = .error e →
          domContentLoaded page = (before.map Wiring.tooltip, some e))
      ∧ ((∀ el ∈ page.tooltipTriggers, page.newTooltip el = .ok ()) →
          ∀ before el after e, page.popoverTriggers = before ++ el :: after →
            (∀ x ∈ before, page.newPopover x = .ok ()) → page.newPopover el = .error e →
            domContentLoaded page
              = (page.tooltipTriggers.map Wiring.tooltip ++ before.map Wiring.popover,
                  some e)) := by
  refine ⟨?_, ?_, ?_⟩
  · intro htool hpop
    have h1 := construct_ok page.newTooltip Wiring.tooltip page.tooltipTriggers htool
    have h2 := construct_ok page.newPopover Wiring.popover page.popoverTriggers hpop
    constructor
    · intro hobs
      have hrun : domContentLoaded page
          = (wiredBeforeObserver page ++ (page.lazyVideos.map Wiring.observe
              ++ wireForms page.forms ++ wireScroll page.pathname), none) := by
        simp [domContentLoaded, h1, h2, andThen, wireLazyVideos, hobs, wiredBeforeObserver]
      rw [hrun]
      refine ⟨rfl, fun w => ?_⟩
      rw [List.mem_append, mem_wiredBeforeObserver, mem_wiredFromObserver]
    · intro e hobs
      have hrun : domContentLoaded page = (wiredBeforeObserver page, some e) := by
        simp [domContentLoaded, h1, h2, andThen, wireLazyVideos, hobs, wiredBeforeObserver]
      rw [hrun]
      exact ⟨rfl, fun w => mem_wiredBeforeObserver page w⟩
  · intro before el after e hsplit hbefore hthrow
    have h1 := construct_split page.newTooltip Wiring.tooltip before after el e hbefore hthrow
    unfold domContentLoaded
    rw [hsplit, andThen_throws _ _ e (by rw [h1]), h1]
  · intro htool before el after e hsplit hbefore hthrow
    have h1 := construct_ok page.newTooltip Wiring.tooltip page.tooltipTriggers htool
    have h2 := construct_split page.newPopover Wiring.popover before after el e hbefore hthrow
    unfold domContentLoaded
    rw [hsplit, h1, andThen_throws (construct page.newPopover Wiring.popover
      (before ++ el :: after)) _ e (by rw [h2]), h2]
    rfl

theorem domContentLoaded_sequential_witness :
    ((domContentLoaded (samplePage false true)).2 = some (.thrown 1)
        ∧ ∀ w, w ∈ (domContentLoaded (samplePage false true)).1
            ↔ ExpectedBeforeObserver (samplePage false true) w)
      ∧ domContentLoaded (samplePage true false) = ([].map Wiring.tooltip, some (.thrown 0)) :=
  ⟨((domContentLoaded_sequential (samplePage false true)).1
      (by simp [samplePage]) (by simp [samplePage])).2 (.thrown 1) rfl,
    (domContentLoaded_sequential (samplePage true false)).2.1 [] 1 [] (.thrown 0) rfl
      (by simp) rfl⟩

/-- C8 as stated fails: on a page where every behaviour has its element and the
tooltip constructor throws, the handler ends at the first statement and wires
nothing, while the same page with a constructor that returns gets the upload
validation and the scroll listener. -/
theorem domContentLoaded_tooltip_throw_blocks_all :
    domContentLoaded (samplePage true false) = ([], some (.thrown 0))
      ∧ Wiring.listener 7 (js "change") ∈ (domContentLoaded (samplePage false false)).1
      ∧ Wiring.scrollListener ∈ (domContentLoaded (samplePage false false)).1 := by
  decide

end VideoSharing
